import Mathlib

/-!
Verification development for the interpreter backend: a shallow embedding of the
per-session streaming orchestration pipeline in `backend/main.py` and the provider
clients in `backend/services/`, with theorems settling the specification claims.

Python strings are modelled as lists of characters (codepoints), so that every
operation evaluates by kernel reduction.
-/

namespace Interp

/-- Python `str.isspace` on the ASCII whitespace characters that can occur in
this pipeline (space, tab, newline, carriage return, vertical tab, form feed). -/
def pyIsSpace (c : Char) : Bool :=
  c = ' ' || c = '\t' || c = '\n' || c = '\r' || c = '\x0b' || c = '\x0c'

/-- Python `str.lstrip()`. -/
def pyLstrip (cs : List Char) : List Char :=
  cs.dropWhile pyIsSpace

/-- Python `str.rstrip()`. -/
def pyRstrip (cs : List Char) : List Char :=
  (cs.reverse.dropWhile pyIsSpace).reverse

/-- Python `str.strip()`. -/
def pyStrip (cs : List Char) : List Char :=
  pyRstrip (pyLstrip cs)

/-- The sentence terminators tested by `main.py` in `on_transcript` and in the
partial-emission check of `translate_and_speak`: `. ! ? 。 ！ ？`. -/
def sentenceTerminators : List Char :=
  ['.', '!', '?', '。', '！', '？']

/-- Python `s.endswith((".", "!", "?", "。", "！", "？"))`: since every
terminator is a single character, this is a test on the last character. -/
def endsWithTerminator (cs : List Char) : Bool :=
  match cs.getLast? with
  | some c => sentenceTerminators.contains c
  | none => false

/-! ## Transcript accumulator (`on_transcript`, main.py lines 253-284)

For a final fragment, `on_transcript` first checks `text.strip()` is non-empty,
returns early when `use_speechmatics_translation` is set, otherwise appends
`" " + text.strip()` to `transcript_buffer` and flushes (enqueues the stripped
buffer and clears it) when the buffer length exceeds the trigger threshold or
the right-stripped buffer ends with a sentence terminator. -/

/-- One final-fragment step of the transcript accumulator: returns the new
buffer and the flushed job text, if any. -/
def onFinalTranscript (useSmTranslation : Bool) (triggerChars : Nat)
    (buf text : List Char) : List Char × Option (List Char) :=
  if pyStrip text = [] then (buf, none)
  else if useSmTranslation then (buf, none)
  else
    let buf2 := buf ++ ' ' :: pyStrip text
    if triggerChars < buf2.length || endsWithTerminator (pyRstrip buf2) then
      ([], some (pyStrip buf2))
    else
      (buf2, none)

/-- Run the accumulator over a sequence of final fragments, collecting the
flushed jobs in order. -/
def runFinalTranscripts (useSmTranslation : Bool) (triggerChars : Nat)
    (frags : List (List Char)) : List Char × List (List Char) :=
  frags.foldl
    (fun st t =>
      match onFinalTranscript useSmTranslation triggerChars st.1 t with
      | (b, none) => (b, st.2)
      | (b, some j) => (b, st.2 ++ [j]))
    ([], [])

/-! ## Streaming delta normalizer (`translate_stream`, minimax_client.py lines 208-223)

Each decoded chunk text `piece` is compared against the accumulated snapshot
`translated_so_far`: if the piece extends the snapshot the suffix is the delta,
if the snapshot already starts with the piece the delta is empty, otherwise the
piece is an independent append.  Only non-empty deltas are yielded. -/

/-- One step of the delta normalizer: given the accumulated snapshot and an
incoming piece, return the computed delta and the new snapshot. -/
def normalizeDelta (acc piece : List Char) : List Char × List Char :=
  if acc.isPrefixOf piece then (piece.drop acc.length, piece)
  else if piece.isPrefixOf acc then ([], acc)
  else (piece, acc ++ piece)

/-- Run the delta normalizer over all stream pieces, returning the per-piece
computed deltas and the final snapshot.  (The generator yields exactly the
non-empty entries of the delta list, in order.) -/
def runDeltaStream (pieces : List (List Char)) : List (List Char) × List Char :=
  pieces.foldl
    (fun st piece =>
      let d := normalizeDelta st.2 piece
      (st.1 ++ [d.1], d.2))
    ([], [])

/-- The deltas actually yielded by `translate_stream`: the non-empty ones. -/
def yieldedDeltas (pieces : List (List Char)) : List (List Char) :=
  (runDeltaStream pieces).1.filter (fun d => !d.isEmpty)

/-! ## Translation job queue (`enqueue_translation`, main.py lines 228-238, and
`translation_worker`, lines 240-251)

The queue is an `asyncio.Queue(maxsize=1)` holding either a text job or the
`None` stop sentinel.  `enqueue_translation` returns early on blank text or a
closed connection, otherwise drains every waiting item with `get_nowait` and
puts the stripped text.  The single worker task removes one item at a time;
an item being processed is no longer in the queue, so draining can never touch
it. -/

/-- A queue item: a translation job or the `None` poison sentinel. -/
inductive QItem
  | job (text : List Char)
  | stop
deriving DecidableEq

/-- The queue together with the worker's in-flight item and the list of jobs
whose execution has completed. -/
structure WorkerState where
  queue : List QItem
  processing : Option (List Char)
  executed : List (List Char)
deriving DecidableEq

/-- `enqueue_translation`: skip blank text and closed connections, else drain
all waiting items and put the stripped text. -/
def enqueueTranslation (connOpen : Bool) (st : WorkerState) (text : List Char) :
    WorkerState :=
  if pyStrip text = [] || !connOpen then st
  else { st with queue := [QItem.job (pyStrip text)] }

/-- The worker removes the next job from the queue and starts processing it
(only when idle; the real worker awaits the previous job to completion first). -/
def workerBegin (st : WorkerState) : WorkerState :=
  match st.processing, st.queue with
  | none, QItem.job t :: rest => { st with queue := rest, processing := some t }
  | _, _ => st

/-- The worker finishes the in-flight job. -/
def workerFinish (st : WorkerState) : WorkerState :=
  match st.processing with
  | some t => { st with processing := none, executed := st.executed ++ [t] }
  | none => st

/-- One complete consumption: take the next waiting job and run it to
completion. -/
def consumeOne (st : WorkerState) : WorkerState :=
  workerFinish (workerBegin st)

/-! ## The session-wide translation lock (main.py lines 202, 346, 367)

Both job executors run their whole body inside `async with translation_lock`.
We model two translate-and-speak executions as two tasks competing for the
lock; each task acquires, runs its synthesis call (the critical section), and
releases, appending start/end events to a log. -/

/-- Progress of one translate-and-speak execution: not started, inside the
locked section (its synthesis call in progress), or finished. -/
inductive Phase
  | ready
  | crit
  | done
deriving DecidableEq

/-- Global state of two competing job executions: the lock holder, each task's
phase, and the log of start/end events (`(task, true)` marks completion). -/
structure LockState where
  holder : Option Bool
  pc0 : Phase
  pc1 : Phase
  log : List (Bool × Bool)
deriving DecidableEq

/-- Start-of-execution event of task `i`. -/
def startEv (i : Bool) : Bool × Bool := (i, false)

/-- End-of-execution event of task `i`. -/
def endEv (i : Bool) : Bool × Bool := (i, true)

/-- The phase of task `i`. -/
def pcOf (st : LockState) (i : Bool) : Phase :=
  if i then st.pc1 else st.pc0

/-- Replace the phase of task `i`. -/
def setPc (st : LockState) (i : Bool) (p : Phase) : LockState :=
  if i then { st with pc1 := p } else { st with pc0 := p }

/-- Interleaving semantics of `async with translation_lock`: a task may enter
the critical section only when the lock is free, and leaves it by releasing. -/
inductive LockStep : LockState → LockState → Prop
  | acquire (st : LockState) (i : Bool) :
      st.holder = none → pcOf st i = Phase.ready →
      LockStep st { setPc st i Phase.crit with
                      holder := some i, log := st.log ++ [startEv i] }
  | release (st : LockState) (i : Bool) :
      st.holder = some i → pcOf st i = Phase.crit →
      LockStep st { setPc st i Phase.done with
                      holder := none, log := st.log ++ [endEv i] }

/-- Initial state: lock free, both jobs pending, empty log. -/
def lockInit : LockState :=
  ⟨none, Phase.ready, Phase.ready, []⟩

/-- States reachable by any interleaving of the two executions. -/
def LockReachable (st : LockState) : Prop :=
  Relation.ReflTransGen LockStep lockInit st

/-! ## Exceptions and outbound events -/

/-- The Python exception kinds that matter to the session code paths. -/
inductive PyErr
  | attributeErr (name : List Char)
  | typeErr (kwarg : List Char)
  | httpStatusErr
  | connectionErr
  | valueErr
  | webSocketDisconnect
  | runtimeErr
deriving DecidableEq

/-- The exception classes caught by the per-job handlers in
`speak_translated_text` and `translate_and_speak`:
`httpx.HTTPStatusError`, `ConnectionError`, `ValueError`. -/
def recoverable : PyErr → Bool
  | PyErr.httpStatusErr => true
  | PyErr.connectionErr => true
  | PyErr.valueErr => true
  | _ => false

/-- Outbound session events, as sent by `main.py`. -/
inductive OutEvent
  | transcript (text : List Char) (isFinal : Bool)
  | translatedText (text : List Char)
  | translatedTextPart (text : List Char)
  | errorEvent (e : PyErr)
  | audioBytes (payload : List Char)
deriving DecidableEq

/-- Whether an event is the binary audio frame. -/
def isAudioEvent : OutEvent → Bool
  | OutEvent.audioBytes _ => true
  | _ => false

/-- Whether an event is an error event. -/
def isErrorEvent : OutEvent → Bool
  | OutEvent.errorEvent _ => true
  | _ => false

/-! ## Guarded send helpers (`safe_send_json` / `safe_send_bytes`, main.py
lines 206-226)

Each helper returns `False` without touching the socket when the connection
flag is already down; otherwise it attempts the send, and on
`WebSocketDisconnect`/`RuntimeError` flips the flag to `False` and returns
`False`. -/

/-- Outcome of one attempted socket write. -/
inductive NetOutcome
  | delivered
  | disconnected
deriving DecidableEq

/-- Result of one call to a send helper: its return value, the connection flag
afterwards, and whether a socket write was attempted at all. -/
structure SendResult where
  returned : Bool
  openAfter : Bool
  attempted : Bool
deriving DecidableEq

/-- Common body of `safe_send_json` and `safe_send_bytes`. -/
def safeSend (connOpen : Bool) (net : NetOutcome) : SendResult :=
  if connOpen then
    match net with
    | NetOutcome.delivered => ⟨true, true, true⟩
    | NetOutcome.disconnected => ⟨false, false, true⟩
  else ⟨false, false, false⟩

/-- `safe_send_json`, parameterised by the JSON payload it would send. -/
def safeSendJson (connOpen : Bool) (_payload : OutEvent) (net : NetOutcome) :
    SendResult :=
  safeSend connOpen net

/-- `safe_send_bytes`, parameterised by the binary payload it would send. -/
def safeSendBytes (connOpen : Bool) (_payload : List Char) (net : NetOutcome) :
    SendResult :=
  safeSend connOpen net

/-- The connection flag after each of a sequence of send attempts. -/
def openStates (connOpen : Bool) : List NetOutcome → List Bool
  | [] => []
  | n :: ns =>
    let r := safeSend connOpen n
    r.openAfter :: openStates r.openAfter ns

/-! ## Synthesis provider chain (`synthesize_tts`, main.py lines 308-342)

If a voice identity is set, `minimax.voice_clone_tts(...)` is attempted inside
`try/except Exception`; then `speechmatics_tts.text_to_speech` for the target
language; if that returns no audio, `minimax.text_to_speech`.  The session's
`tts_provider` field is set by config messages (main.py lines 460-462) but is
never read by `synthesize_tts`. -/

/-- Audio payloads, as byte strings. -/
abbrev Audio := List Char

/-- The methods defined on `MinimaxClient` (minimax_client.py lines 75-452). -/
def minimaxClientMethods : List String :=
  ["__init__", "_headers", "translate", "translate_stream",
   "_extract_text_piece", "text_to_speech", "_resolve_voice_id",
   "_text_to_speech_once", "_connect_tts_websocket", "_wait_for_event",
   "close"]

/-- Outcome of one provider call: a returned value or a raised exception. -/
inductive CallResult
  | ok (audio : Option Audio)
  | raise (e : PyErr)
deriving DecidableEq

/-- The behaviour of the three provider calls a synthesis request can make. -/
structure TtsEnv where
  cloneResult : CallResult
  smResult : CallResult
  mmResult : CallResult
deriving DecidableEq

/-- Python truthiness of a provider's audio return value (`None` and empty
bytes are falsy). -/
def truthyAudio : Option Audio → Bool
  | some a => !a.isEmpty
  | none => false

/-- The attempted call of `minimax.voice_clone_tts`: attribute lookup on the
`MinimaxClient` instance precedes any call, so a missing method raises
`AttributeError` regardless of the intended behaviour. -/
def voiceCloneCall (env : TtsEnv) : CallResult :=
  if minimaxClientMethods.contains ("voice_clone_tts") then env.cloneResult
  else CallResult.raise (PyErr.attributeErr ("voice_clone_tts".data))

/-- Per-session configuration read by the pipeline closures. -/
structure Session where
  sourceLang : List Char
  targetLang : List Char
  ttsProvider : List Char
  userVoiceId : Option (List Char)
deriving DecidableEq

/-- The providers attempted by one synthesis request, in order. -/
inductive TtsAttempt
  | voiceClone
  | smTts
  | mmTts
deriving DecidableEq

/-- `synthesize_tts`: returns the audio result (or the raised exception) and
the trace of provider attempts in order. -/
def synthesizeTts (s : Session) (env : TtsEnv) :
    Except PyErr (Option Audio) × List TtsAttempt :=
  let cloneStep : Option Audio × List TtsAttempt :=
    match s.userVoiceId with
    | none => (none, [])
    | some _ =>
      match voiceCloneCall env with
      | CallResult.ok a =>
        (if truthyAudio a then a else none, [TtsAttempt.voiceClone])
      | CallResult.raise _ => (none, [TtsAttempt.voiceClone])
  match cloneStep with
  | (some a, tr) => (Except.ok (some a), tr)
  | (none, tr) =>
    match env.smResult with
    | CallResult.raise e => (Except.error e, tr ++ [TtsAttempt.smTts])
    | CallResult.ok a =>
      if truthyAudio a then (Except.ok a, tr ++ [TtsAttempt.smTts])
      else
        match env.mmResult with
        | CallResult.raise e =>
          (Except.error e, tr ++ [TtsAttempt.smTts, TtsAttempt.mmTts])
        | CallResult.ok a2 =>
          (Except.ok a2, tr ++ [TtsAttempt.smTts, TtsAttempt.mmTts])

/-! ## Job executors (`speak_translated_text` main.py 344-363,
`translate_and_speak` main.py 365-442) and the worker loop

Both executors run under the translation lock, bail out on a closed connection
or blank input, contain `httpx.HTTPStatusError` / `ConnectionError` /
`ValueError` by emitting one error event, and let any other exception
propagate out of the job.  Socket writes are modelled as delivered while the
connection is open (the closed case is handled by the send-helper model). -/

/-- Result of one job execution: the events it emitted (worker loop continues)
or an exception that escaped the per-job handler. -/
inductive JobOutcome
  | events (evs : List OutEvent)
  | uncaught (e : PyErr)
deriving DecidableEq

/-- Outcome of obtaining a translation string. -/
inductive TranslateOutcome
  | ok (translated : List Char)
  | raise (e : PyErr)
deriving DecidableEq

/-- The collaborator behaviour one `translate_and_speak` job observes: the
partial snapshots its throttle actually sent, the final accumulated streaming
text, the single-shot fallback result, and the synthesis provider behaviour. -/
structure JobEnv where
  partialTexts : List (List Char)
  streamOutcome : TranslateOutcome
  fallbackOutcome : TranslateOutcome
  tts : TtsEnv
deriving DecidableEq

/-- Containment of a translation/synthesis exception by the per-job handler:
recoverable errors append one error event; everything else escapes. -/
def containErr (e : PyErr) (emitted : List OutEvent) : JobOutcome :=
  if recoverable e then JobOutcome.events (emitted ++ [OutEvent.errorEvent e])
  else JobOutcome.uncaught e

/-- `speak_translated_text`: synthesize already-translated text and send the
audio bytes, if any. -/
def speakTranslatedText (connOpen : Bool) (s : Session) (text : List Char)
    (tts : TtsEnv) : JobOutcome :=
  if !connOpen || pyStrip text = [] then JobOutcome.events []
  else
    match synthesizeTts s tts with
    | (Except.error e, _) => containErr e []
    | (Except.ok a, _) =>
      match a with
      | some b =>
        if b.isEmpty then JobOutcome.events []
        else JobOutcome.events [OutEvent.audioBytes b]
      | none => JobOutcome.events []

/-- `translate_and_speak`: stream a translation (emitting throttled partials),
fall back to the single-shot call when streaming produced nothing, emit the
final translated text, then synthesize and send audio. -/
def translateAndSpeak (connOpen : Bool) (s : Session) (text : List Char)
    (env : JobEnv) : JobOutcome :=
  if !connOpen || pyStrip text = [] then JobOutcome.events []
  else
    let partials := env.partialTexts.map OutEvent.translatedTextPart
    match env.streamOutcome with
    | TranslateOutcome.raise e => containErr e partials
    | TranslateOutcome.ok t0 =>
      let afterFallback : TranslateOutcome :=
        if t0 = [] then env.fallbackOutcome else TranslateOutcome.ok t0
      match afterFallback with
      | TranslateOutcome.raise e => containErr e partials
      | TranslateOutcome.ok t1 =>
        let tFinal := pyStrip t1
        if tFinal = [] then JobOutcome.events partials
        else
          let sentText := partials ++ [OutEvent.translatedText tFinal]
          match synthesizeTts s env.tts with
          | (Except.error e, _) => containErr e sentText
          | (Except.ok a, _) =>
            match a with
            | some b =>
              if b.isEmpty then JobOutcome.events sentText
              else JobOutcome.events (sentText ++ [OutEvent.audioBytes b])
            | none => JobOutcome.events sentText

/-- `translation_worker`: repeatedly take an item; the `None` sentinel returns
from the task; a job runs the executor chosen by the translation mode; the
loop survives any job whose exceptions were contained.  Returns all events and
the exception that killed the task, if any. -/
def runWorker (connOpen : Bool) (useSmTranslation : Bool) (s : Session) :
    List (QItem × JobEnv) → List OutEvent × Option PyErr
  | [] => ([], none)
  | (QItem.stop, _) :: _ => ([], none)
  | (QItem.job t, env) :: rest =>
    let out :=
      if useSmTranslation then speakTranslatedText connOpen s t env.tts
      else translateAndSpeak connOpen s t env
    match out with
    | JobOutcome.events evs =>
      let r := runWorker connOpen useSmTranslation s rest
      (evs ++ r.1, r.2)
    | JobOutcome.uncaught e => ([], some e)

/-! ## Configuration handling (`websocket_translate`, main.py lines 453-504)

A config message updates the language pair and (when valid) the TTS provider,
re-resolves the voice profile, closes any existing recognizer, and then
constructs `SpeechmaticsClient(api_key=..., language=..., target_language=...,
on_transcript=..., on_translation=...)`.  `SpeechmaticsClient.__init__`
(speechmatics_client.py lines 43-48) accepts only `api_key`, `language` and
`on_transcript`, so Python keyword binding raises `TypeError` before the
constructor body runs.  The read loop catches only `WebSocketDisconnect` and
`RuntimeError`. -/

/-- The keyword parameters accepted by `SpeechmaticsClient.__init__`. -/
def speechmaticsInitParams : List String :=
  ["api_key", "language", "on_transcript"]

/-- The keyword arguments passed at the construction site in the config
handler (main.py lines 496-502). -/
def speechmaticsCallKwargs : List String :=
  ["api_key", "language", "target_language", "on_transcript", "on_translation"]

/-- Python keyword binding: calling with a keyword argument the callee does
not accept raises `TypeError`. -/
def bindCallKwargs (params kwargs : List String) : Except PyErr Unit :=
  match kwargs.find? (fun k => !params.contains k) with
  | some k => Except.error (PyErr.typeErr k.data)
  | none => Except.ok ()

/-- An inbound config message. -/
structure ConfigMsg where
  sourceLang : List Char
  targetLang : List Char
  ttsProvider : Option (List Char)
  userId : Option (List Char)
deriving DecidableEq

/-- The body of the config branch: update session fields, resolve the voice
profile (`profile` is the ready profile id the lookup returned, if any), then
construct and connect the recognizer client. -/
def handleConfigMessage (s : Session) (m : ConfigMsg)
    (profile : Option (List Char)) : Except PyErr Session :=
  let s1 : Session :=
    { s with
        sourceLang := m.sourceLang
        targetLang := m.targetLang
        ttsProvider :=
          match m.ttsProvider with
          | some p =>
            if p = ("minimax".data) || p = ("speechmatics".data) then p
            else s.ttsProvider
          | none => s.ttsProvider }
  let s2 : Session :=
    if m.userId.isSome then { s1 with userVoiceId := profile } else s1
  match bindCallKwargs speechmaticsInitParams speechmaticsCallKwargs with
  | Except.error e => Except.error e
  | Except.ok _ => Except.ok s2

/-- The exception classes the inbound read loop catches (main.py lines
511-516). -/
def readLoopCatches : PyErr → Bool
  | PyErr.webSocketDisconnect => true
  | PyErr.runtimeErr => true
  | _ => false

/-- What becomes of the session after one inbound message is handled. -/
inductive SessionFate
  | streaming (s : Session)
  | closedGracefully
  | crashed (e : PyErr)
deriving DecidableEq

/-- Dispatch of one config message by the read loop: an exception from the
handler ends the session, gracefully if it is a caught class. -/
def dispatchConfig (s : Session) (m : ConfigMsg)
    (profile : Option (List Char)) : SessionFate :=
  match handleConfigMessage s m profile with
  | Except.ok s2 => SessionFate.streaming s2
  | Except.error e =>
    if readLoopCatches e then SessionFate.closedGracefully
    else SessionFate.crashed e

/-! ## Teardown (`websocket_translate`, `finally` block, main.py lines 517-537)

The flag is forced to `False`, every waiting queue item is drained with
`get_nowait`, the `None` sentinel is put, the worker is awaited, and the
clients are closed.  The transcript buffer is not consulted. -/

/-- The teardown's effect on the connection flag, the transcript buffer and
the queue: the buffer is left untouched, the queue ends up holding exactly the
stop sentinel. -/
def sessionTeardown (buf : List Char) (st : WorkerState) :
    Bool × List Char × WorkerState :=
  (false, buf, { st with queue := [QItem.stop] })

/-! ## Theorems -/

/-- C1: the spec says a configuration message reinitializes the recognizer
connection with the current source/target language and translation mode and
never terminates the session.  The construction site passes the keyword
arguments `target_language` and `on_translation`, which
`SpeechmaticsClient.__init__` does not accept, so every configuration message
raises `TypeError`; the read loop catches only `WebSocketDisconnect` and
`RuntimeError`, so the session crashes instead of continuing. -/
theorem c1_config_message_crashes_session :
    ∀ (s : Session) (m : ConfigMsg) (profile : Option (List Char)),
      handleConfigMessage s m profile =
          Except.error (PyErr.typeErr ("target_language".data)) ∧
        dispatchConfig s m profile =
          SessionFate.crashed (PyErr.typeErr ("target_language".data)) := by
  intro s m profile
  have hb : bindCallKwargs speechmaticsInitParams speechmaticsCallKwargs =
      Except.error (PyErr.typeErr ("target_language".data)) := by rfl
  constructor
  · simp [handleConfigMessage, hb]
  · simp [dispatchConfig, handleConfigMessage, hb, readLoopCatches]

/-- C4: after each final fragment is appended (with a separating space) to the
accumulator, the buffer is flushed — trimmed, enqueued, cleared — exactly when
its length exceeds the trigger threshold or the right-trimmed buffer ends with
a sentence terminator; with threshold 24, the fragments `hello ` and
`world this is` (combined length 20) do not flush, and ` a test.` flushes at
once, regardless of the threshold. -/
theorem c4_transcript_flush_policy :
    (∀ (trigger : Nat) (buf text : List Char),
        onFinalTranscript false trigger buf text =
          if pyStrip text = [] then (buf, none)
          else
            if trigger < (buf ++ ' ' :: pyStrip text).length ∨
                endsWithTerminator (pyRstrip (buf ++ ' ' :: pyStrip text)) = true
            then ([], some (pyStrip (buf ++ ' ' :: pyStrip text)))
            else (buf ++ ' ' :: pyStrip text, none)) ∧
    runFinalTranscripts false 24 [("hello ".data), ("world this is".data)] =
      ((" hello world this is".data), []) ∧
    runFinalTranscripts false 24
        [("hello ".data), ("world this is".data), (" a test.".data)] =
      ([], [("hello world this is a test.".data)]) ∧
    (runFinalTranscripts false 1000
        [("hello ".data), ("world this is".data), (" a test.".data)]).2 =
      [("hello world this is a test.".data)] := by
  refine ⟨?_, by decide, by decide, by decide⟩
  intro trigger buf text
  unfold onFinalTranscript
  set B : List Char := buf ++ ' ' :: pyStrip text with hB
  by_cases h1 : pyStrip text = []
  · simp [h1]
  · rw [if_neg h1, if_neg h1]
    simp only [Bool.false_eq_true, if_false]
    by_cases h2 : trigger < B.length ∨ endsWithTerminator (pyRstrip B) = true
    · have hb : (decide (trigger < B.length) || endsWithTerminator (pyRstrip B)) = true := by
        rcases h2 with h | h
        · rw [decide_eq_true h, Bool.true_or]
        · rw [h, Bool.or_true]
      rw [if_pos h2, hb, if_pos rfl]
    · have hnlt : ¬ trigger < B.length := fun hh => h2 (Or.inl hh)
      have hne : endsWithTerminator (pyRstrip B) = false := by
        cases hE : endsWithTerminator (pyRstrip B) with
        | true => exact absurd (Or.inr hE) h2
        | false => rfl
      have hb : (decide (trigger < B.length) || endsWithTerminator (pyRstrip B)) = false := by
        rw [decide_eq_false hnlt, hne, Bool.or_false]
      rw [if_neg h2, hb]
      simp

/-- C9 counterexample: with a non-empty transcript buffer and a stale waiting
job, teardown leaves the queue holding only the stop sentinel — the buffer is
not flushed as a final translation job, and nothing from it is ever
executed. -/
theorem c9_no_drain_flush_counterexample :
    (sessionTeardown (" hello".data)
        ⟨[QItem.job ("stale".data)], none, []⟩).2.2.queue = [QItem.stop] ∧
    QItem.job (pyStrip (" hello".data)) ∉
      (sessionTeardown (" hello".data)
        ⟨[QItem.job ("stale".data)], none, []⟩).2.2.queue ∧
    (sessionTeardown (" hello".data)
        ⟨[QItem.job ("stale".data)], none, []⟩).2.2.executed = [] := by
  refine ⟨rfl, ?_, rfl⟩
  decide

/-- C9 amended: on session drain the remaining transcript buffer is discarded,
not flushed: teardown flips the connection flag, purges every waiting job and
enqueues only the stop sentinel; moreover, once the flag is down,
`enqueue_translation` is a no-op, so no drain-time flush could ever enter the
queue. -/
theorem c9_drain_discards_buffer :
    ∀ (buf : List Char) (st : WorkerState),
      sessionTeardown buf st = (false, buf, ⟨[QItem.stop], st.processing, st.executed⟩) ∧
      (∀ text : List Char, enqueueTranslation false st text = st) := by
  intro buf st
  refine ⟨rfl, ?_⟩
  intro text
  simp [enqueueTranslation]

/-- C10: `MinimaxClient` defines no method named `voice_clone_tts`, so the
cloned-voice step of `synthesize_tts` always raises `AttributeError`, which the
surrounding catch-all swallows: with a voice identity set the result is exactly
the Speechmatics-then-MiniMax chain of the no-voice-identity session, with one
futile clone attempt prepended. -/
theorem c10_voice_clone_method_missing :
    minimaxClientMethods.contains ("voice_clone_tts") = false ∧
    (∀ env : TtsEnv, voiceCloneCall env =
        CallResult.raise (PyErr.attributeErr ("voice_clone_tts".data))) ∧
    (∀ (s : Session) (env : TtsEnv) (v : List Char),
        synthesizeTts { s with userVoiceId := some v } env =
          ((synthesizeTts { s with userVoiceId := none } env).1,
            TtsAttempt.voiceClone ::
              (synthesizeTts { s with userVoiceId := none } env).2)) := by
  have hc : minimaxClientMethods.contains ("voice_clone_tts") = false := by decide
  refine ⟨hc, ?_, ?_⟩
  · intro env
    unfold voiceCloneCall
    rw [hc]
    simp
  · intro s env v
    simp only [synthesizeTts, voiceCloneCall, hc]
    cases hsm : env.smResult with
    | raise e => simp
    | ok a =>
      by_cases ha : truthyAudio a = true
      · simp [ha]
      · cases hmm : env.mmResult with
        | raise e => simp [ha]
        | ok a2 => simp [ha]

/-- C6: the streaming delta-normalizer emits the suffix when a chunk extends
the accumulated text, contributes nothing when the accumulated text already
starts with the chunk, treats any other chunk as an independent append; and
the sequence `Hola`, `Hola mundo`, `Hola mundo` produces the per-chunk deltas
`Hola`, ` mundo`, `` (the empty third delta is filtered from the yield). -/
theorem c6_delta_normalizer :
    (∀ acc piece : List Char, acc.isPrefixOf piece = true →
        normalizeDelta acc piece = (piece.drop acc.length, piece)) ∧
    (∀ acc piece : List Char, piece.isPrefixOf acc = true →
        (normalizeDelta acc piece).1 = [] ∧ (normalizeDelta acc piece).2 = acc) ∧
    (∀ acc piece : List Char, acc.isPrefixOf piece = false →
        piece.isPrefixOf acc = false →
        normalizeDelta acc piece = (piece, acc ++ piece)) ∧
    (runDeltaStream [("Hola".data), ("Hola mundo".data), ("Hola mundo".data)]).1 =
      [("Hola".data), (" mundo".data), []] ∧
    yieldedDeltas [("Hola".data), ("Hola mundo".data), ("Hola mundo".data)] =
      [("Hola".data), (" mundo".data)] := by
  refine ⟨?_, ?_, ?_, by decide, by decide⟩
  · intro acc piece h
    simp [normalizeDelta, h]
  · intro acc piece h
    by_cases h2 : acc.isPrefixOf piece = true
    · have hpa : piece <+: acc := List.isPrefixOf_iff_prefix.mp h
      have hap : acc <+: piece := List.isPrefixOf_iff_prefix.mp h2
      have heq : acc = piece := hap.eq_of_length (hap.length_le.antisymm hpa.length_le)
      subst heq
      simp [normalizeDelta, h]
    · simp [normalizeDelta, h, h2]
  · intro acc piece h h2
    simp [normalizeDelta, h, h2]

/-- Closed witness for the delta-normalizer characterization, at concrete
prefix-extending, contained and unrelated chunks. -/
theorem c6_delta_normalizer_witness :
    normalizeDelta ("Hola".data) ("Hola mundo".data) =
        ((" mundo".data), ("Hola mundo".data)) ∧
      ((normalizeDelta ("Hola mundo".data) ("Hola".data)).1 = [] ∧
        (normalizeDelta ("Hola mundo".data) ("Hola".data)).2 = ("Hola mundo".data)) ∧
      normalizeDelta ("abc".data) ("xyz".data) =
        (("xyz".data), ("abcxyz".data)) := by
  refine ⟨?_, ?_, ?_⟩
  · have h := c6_delta_normalizer.1 ("Hola".data) ("Hola mundo".data) (by decide)
    simpa using h
  · exact c6_delta_normalizer.2.1 ("Hola mundo".data) ("Hola".data) (by decide)
  · exact c6_delta_normalizer.2.2.1 ("abc".data) ("xyz".data) (by decide) (by decide)

/-- Eviction replaces the queue contents with the new stripped job and touches
nothing else (helper for the queue claims). -/
theorem enqueue_valid_eq (st : WorkerState) (t : List Char) (h : pyStrip t ≠ []) :
    enqueueTranslation true st t = ⟨[QItem.job (pyStrip t)], st.processing, st.executed⟩ := by
  simp [enqueueTranslation, h]

/-- Folding a non-empty sequence of valid enqueues leaves exactly the last
job waiting, whatever the starting state (helper for the queue claims). -/
theorem foldl_enqueue_eq :
    ∀ (ts : List (List Char)) (st : WorkerState) (l : List Char),
      ts.getLast? = some l → (∀ t ∈ ts, pyStrip t ≠ []) →
      ts.foldl (enqueueTranslation true) st =
        ⟨[QItem.job (pyStrip l)], st.processing, st.executed⟩
  | [], _, _ => by intro h _; simp at h
  | [t], st, l => by
    intro h1 h2
    have ht : t = l := by simpa using h1
    subst ht
    simpa using enqueue_valid_eq st t (h2 t (by simp))
  | t :: t2 :: ts, st, l => by
    intro h1 h2
    have h1' : (t2 :: ts).getLast? = some l := by
      simpa [List.getLast?_cons_cons] using h1
    have hrec := foldl_enqueue_eq (t2 :: ts) (enqueueTranslation true st t) l h1'
      (fun x hx => h2 x (List.mem_cons_of_mem t hx))
    have hpres : (enqueueTranslation true st t).processing = st.processing ∧
        (enqueueTranslation true st t).executed = st.executed := by
      unfold enqueueTranslation
      split <;> simp
    calc (t :: t2 :: ts).foldl (enqueueTranslation true) st
        = (t2 :: ts).foldl (enqueueTranslation true) (enqueueTranslation true st t) := rfl
      _ = ⟨[QItem.job (pyStrip l)], (enqueueTranslation true st t).processing,
            (enqueueTranslation true st t).executed⟩ := hrec
      _ = ⟨[QItem.job (pyStrip l)], st.processing, st.executed⟩ := by
            rw [hpres.1, hpres.2]

/-- C2: after any non-empty sequence of enqueues with no intervening
consumption, the queue holds exactly the last enqueued text (stripped), the
in-flight job and the record of executed jobs are untouched by eviction, and
a single consumption executes exactly that one job — after which a further
consumption changes nothing. -/
theorem c2_queue_coalesces_to_last :
    ∀ (st : WorkerState) (ts : List (List Char)) (l : List Char),
      ts.getLast? = some l → (∀ t ∈ ts, pyStrip t ≠ []) →
      (ts.foldl (enqueueTranslation true) st =
          ⟨[QItem.job (pyStrip l)], st.processing, st.executed⟩) ∧
      (∀ t : List Char,
          (enqueueTranslation true st t).processing = st.processing ∧
          (enqueueTranslation true st t).executed = st.executed) ∧
      (st.processing = none →
        consumeOne (ts.foldl (enqueueTranslation true) st) =
            ⟨[], none, st.executed ++ [pyStrip l]⟩ ∧
          consumeOne (consumeOne (ts.foldl (enqueueTranslation true) st)) =
            consumeOne (ts.foldl (enqueueTranslation true) st)) := by
  intro st ts l h1 h2
  have hfold := foldl_enqueue_eq ts st l h1 h2
  refine ⟨hfold, ?_, ?_⟩
  · intro t
    unfold enqueueTranslation
    constructor <;> (split <;> simp)
  · intro hp
    rw [hfold, hp]
    constructor <;> rfl

/-- Closed witness for the queue-coalescing theorem: enqueuing `A` then `B`
from the idle state leaves exactly job `B` waiting, and consuming executes
exactly `B`. -/
theorem c2_queue_coalesces_to_last_witness :
    (["A".data, "B".data].foldl (enqueueTranslation true) ⟨[], none, []⟩ =
        ⟨[QItem.job ("B".data)], none, []⟩) ∧
      consumeOne (["A".data, "B".data].foldl (enqueueTranslation true) ⟨[], none, []⟩) =
        ⟨[], none, [("B".data)]⟩ := by
  have h := c2_queue_coalesces_to_last ⟨[], none, []⟩ ["A".data, "B".data] ("B".data)
    (by decide) (by decide)
  exact ⟨h.1, (h.2.2 rfl).1⟩

/-- After the flag is down it stays down and nothing is attempted (helper for
the post-disconnect claims). -/
theorem openStates_closed (ns : List NetOutcome) :
    openStates false ns = List.replicate ns.length false := by
  induction ns with
  | nil => rfl
  | cons n ns ih => simp [openStates, safeSend, ih, List.replicate_succ]

/-- C7: the connection flag transitions from true to false at most once and
never back: every sequence of send attempts yields a flag trace of the form
trues-then-falses; once the flag is down, both send helpers — for every
payload, hence for transcript, translated-text, partial, error and binary
audio events alike — return false without attempting a write, and a job that
completes later emits nothing. -/
theorem c7_connection_flag_monotone_silence :
    (∀ (o : Bool) (n : NetOutcome), (safeSend o n).openAfter ≤ o) ∧
    (∀ (p : OutEvent) (n : NetOutcome),
        safeSendJson false p n = ⟨false, false, false⟩) ∧
    (∀ (b : List Char) (n : NetOutcome),
        safeSendBytes false b n = ⟨false, false, false⟩) ∧
    (∀ (s : Session) (t : List Char) (env : JobEnv),
        translateAndSpeak false s t env = JobOutcome.events [] ∧
          speakTranslatedText false s t env.tts = JobOutcome.events []) ∧
    (∀ (o : Bool) (ns : List NetOutcome), ∃ k,
        openStates o ns =
          List.replicate k true ++ List.replicate (ns.length - k) false) := by
  refine ⟨?_, ?_, ?_, ?_, ?_⟩
  · intro o n
    cases o <;> cases n <;> simp [safeSend]
  · intro p n
    rfl
  · intro b n
    rfl
  · intro s t env
    constructor <;> rfl
  · intro o ns
    induction ns generalizing o with
    | nil => exact ⟨0, rfl⟩
    | cons n ns ih =>
      cases o with
      | false =>
        refine ⟨0, ?_⟩
        simp [openStates, safeSend, openStates_closed, List.replicate_succ]
      | true =>
        cases n with
        | delivered =>
          obtain ⟨k, hk⟩ := ih true
          refine ⟨k + 1, ?_⟩
          have hlen : ns.length + 1 - (k + 1) = ns.length - k := by omega
          simp [openStates, safeSend, hk, List.replicate_succ, hlen]
        | disconnected =>
          refine ⟨0, ?_⟩
          simp [openStates, safeSend, openStates_closed, List.replicate_succ]

/-- C8: a recoverable error (HTTP status, connection, malformed-response) in
the translation or synthesis call of a job produces exactly one error event,
the job is abandoned, and the worker loop goes on to the remaining queue
items; the same containment applies to a synthesis-side failure. -/
theorem c8_recoverable_job_error_contained :
    ∀ (s : Session) (t : List Char) (env : JobEnv) (e : PyErr)
      (items : List (QItem × JobEnv)),
      recoverable e = true → pyStrip t ≠ [] →
      (translateAndSpeak true s t { env with streamOutcome := TranslateOutcome.raise e } =
          JobOutcome.events
            (env.partialTexts.map OutEvent.translatedTextPart ++
              [OutEvent.errorEvent e])) ∧
      ((env.partialTexts.map OutEvent.translatedTextPart ++
          [OutEvent.errorEvent e]).filter isErrorEvent).length = 1 ∧
      (runWorker true false s
          ((QItem.job t, { env with streamOutcome := TranslateOutcome.raise e }) :: items) =
        ((env.partialTexts.map OutEvent.translatedTextPart ++ [OutEvent.errorEvent e]) ++
            (runWorker true false s items).1,
          (runWorker true false s items).2)) ∧
      (∀ tts2 : TtsEnv,
          speakTranslatedText true s t { tts2 with smResult := CallResult.raise e } =
            JobOutcome.events [OutEvent.errorEvent e]) := by
  intro s t env e items he ht
  have h1 : translateAndSpeak true s t
      { env with streamOutcome := TranslateOutcome.raise e } =
      JobOutcome.events
        (env.partialTexts.map OutEvent.translatedTextPart ++ [OutEvent.errorEvent e]) := by
    simp [translateAndSpeak, ht, containErr, he]
  refine ⟨h1, ?_, ?_, ?_⟩
  · have hmap : (env.partialTexts.map OutEvent.translatedTextPart).filter isErrorEvent = [] := by
      simp [List.filter_map, isErrorEvent]
    simp [List.filter_append, hmap, isErrorEvent]
  · simp [runWorker, h1]
  · intro tts2
    have hm : ("voice_clone_tts" : String) ∉ minimaxClientMethods := by decide
    cases hv : s.userVoiceId with
    | none =>
      simp [speakTranslatedText, ht, synthesizeTts, voiceCloneCall, hm, hv, containErr, he]
    | some v =>
      simp [speakTranslatedText, ht, synthesizeTts, voiceCloneCall, hm, hv, containErr, he]

/-- Closed witness for the error-containment theorem: an HTTP status failure
in a streamed translation for `Hi` yields exactly the one error event and the
worker immediately consumes the stop sentinel afterwards. -/
theorem c8_recoverable_job_error_contained_witness :
    recoverable PyErr.httpStatusErr = true ∧ pyStrip ("Hi".data) ≠ [] ∧
      translateAndSpeak true ⟨("en".data), ("es".data), ("speechmatics".data), none⟩
          ("Hi".data)
          ⟨[], TranslateOutcome.raise PyErr.httpStatusErr, TranslateOutcome.ok [],
            ⟨CallResult.ok none, CallResult.ok none, CallResult.ok none⟩⟩ =
        JobOutcome.events [OutEvent.errorEvent PyErr.httpStatusErr] := by
  have h := c8_recoverable_job_error_contained
    ⟨("en".data), ("es".data), ("speechmatics".data), none⟩ ("Hi".data)
    ⟨[], TranslateOutcome.ok [], TranslateOutcome.ok [],
      ⟨CallResult.ok none, CallResult.ok none, CallResult.ok none⟩⟩
    PyErr.httpStatusErr [] (by decide) (by decide)
  refine ⟨by decide, by decide, ?_⟩
  simpa using h.1

/-- Throttled partial-translation events are never audio events (helper). -/
theorem filter_isAudio_partials (l : List (List Char)) :
    (l.map OutEvent.translatedTextPart).filter isAudioEvent = [] := by
  induction l with
  | nil => rfl
  | cons x xs ih => simp [isAudioEvent, ih]

/-- A job emits at most one binary audio event (helper for the synthesis
claims). -/
theorem translateAndSpeak_audio_le_one :
    ∀ (connOpen : Bool) (s : Session) (t : List Char) (env : JobEnv)
      (evs : List OutEvent),
      translateAndSpeak connOpen s t env = JobOutcome.events evs →
      (evs.filter isAudioEvent).length ≤ 1 := by
  intro connOpen s t env evs h
  unfold translateAndSpeak containErr at h
  repeat' split at h
  all_goals
    try (rcases hfo : env.fallbackOutcome with t1 | e1 <;> rw [hfo] at h)
  all_goals try (dsimp only [] at h)
  all_goals try (repeat' split at h)
  all_goals
    try simp_all [List.filter_append, filter_isAudio_partials, isAudioEvent]
  all_goals try (rw [← h])
  all_goals simp [List.filter_append, filter_isAudio_partials, isAudioEvent]

/-- C5 counterexample: with the session's `tts_provider` set to `minimax` and
both standard providers able to return audio, the attempt after the voice
clone is Speechmatics, not the selected provider, and the Speechmatics audio
wins; moreover, when the Speechmatics call raises, the MiniMax provider is
never attempted at all. -/
theorem c5_selected_provider_ignored_counterexample :
    ((synthesizeTts ⟨("en".data), ("es".data), ("minimax".data), some ("fid".data)⟩
        ⟨CallResult.ok none, CallResult.ok (some ("SM".data)),
          CallResult.ok (some ("MM".data))⟩).2 =
      [TtsAttempt.voiceClone, TtsAttempt.smTts]) ∧
    [TtsAttempt.voiceClone, TtsAttempt.smTts] ≠
      [TtsAttempt.voiceClone, TtsAttempt.mmTts] ∧
    ((synthesizeTts ⟨("en".data), ("es".data), ("minimax".data), some ("fid".data)⟩
        ⟨CallResult.ok none, CallResult.ok (some ("SM".data)),
          CallResult.ok (some ("MM".data))⟩).1 =
      Except.ok (some ("SM".data))) ∧
    ((synthesizeTts ⟨("en".data), ("es".data), ("minimax".data), some ("fid".data)⟩
        ⟨CallResult.ok none, CallResult.raise PyErr.httpStatusErr,
          CallResult.ok (some ("MM".data))⟩).2 =
      [TtsAttempt.voiceClone, TtsAttempt.smTts]) ∧
    ((synthesizeTts ⟨("en".data), ("es".data), ("minimax".data), some ("fid".data)⟩
        ⟨CallResult.ok none, CallResult.raise PyErr.httpStatusErr,
          CallResult.ok (some ("MM".data))⟩).1 =
      Except.error PyErr.httpStatusErr) := by
  refine ⟨rfl, by decide, rfl, rfl, rfl⟩

/-- C5 amended: synthesis attempts cloned voice first (when a voice identity
is set, failures non-fatal), then always Speechmatics, then MiniMax only when
Speechmatics returned no audio — the session's selected `tts_provider` is
ignored, and a raised Speechmatics error aborts the chain; the first
non-empty payload wins and is emitted as exactly one binary audio event; if
no provider produces audio, no audio event is sent and the job ends with the
worker continuing. -/
theorem c5_synthesis_fallback_chain :
    ∀ (s : Session) (env : TtsEnv) (p : List Char) (t : List Char),
      (synthesizeTts { s with ttsProvider := p } env = synthesizeTts s env) ∧
      (∀ e : PyErr,
          synthesizeTts s { env with cloneResult := CallResult.raise e } =
            synthesizeTts s { env with cloneResult := CallResult.ok none }) ∧
      (∀ a : Option Audio, truthyAudio a = true →
          synthesizeTts s { env with smResult := CallResult.ok a } =
            (Except.ok a,
              (if s.userVoiceId.isSome then [TtsAttempt.voiceClone] else []) ++
                [TtsAttempt.smTts])) ∧
      (∀ a : Option Audio, truthyAudio a = false →
          synthesizeTts s { env with smResult := CallResult.ok a } =
            ((match env.mmResult with
              | CallResult.raise e => Except.error e
              | CallResult.ok a2 => Except.ok a2),
              (if s.userVoiceId.isSome then [TtsAttempt.voiceClone] else []) ++
                [TtsAttempt.smTts, TtsAttempt.mmTts])) ∧
      (∀ e : PyErr,
          synthesizeTts s { env with smResult := CallResult.raise e } =
            (Except.error e,
              (if s.userVoiceId.isSome then [TtsAttempt.voiceClone] else []) ++
                [TtsAttempt.smTts])) ∧
      (pyStrip t ≠ [] →
        ∀ evs, speakTranslatedText true s t env = JobOutcome.events evs →
          evs.filter isAudioEvent =
            (match (synthesizeTts s env).1 with
             | Except.ok (some b) => if b = [] then [] else [OutEvent.audioBytes b]
             | _ => [])) ∧
      (∀ (jenv : JobEnv) (evs : List OutEvent),
          translateAndSpeak true s t jenv = JobOutcome.events evs →
          (evs.filter isAudioEvent).length ≤ 1) := by
  intro s env p t
  have hm : ("voice_clone_tts" : String) ∉ minimaxClientMethods := by decide
  refine ⟨?_, ?_, ?_, ?_, ?_, ?_, ?_⟩
  · cases s
    rfl
  · intro e
    cases hv : s.userVoiceId <;>
      simp [synthesizeTts, voiceCloneCall, hm, hv]
  · intro a ha
    cases hv : s.userVoiceId <;>
      simp [synthesizeTts, voiceCloneCall, hm, hv, ha]
  · intro a ha
    cases hv : s.userVoiceId <;>
      cases hmm : env.mmResult <;>
        simp [synthesizeTts, voiceCloneCall, hm, hv, ha, hmm]
  · intro e
    cases hv : s.userVoiceId <;>
      simp [synthesizeTts, voiceCloneCall, hm, hv]
  · intro ht evs hev
    unfold speakTranslatedText containErr at hev
    rw [if_neg (by simp [ht])] at hev
    obtain ⟨r, tr, hsyn⟩ : ∃ r tr, synthesizeTts s env = (r, tr) :=
      ⟨(synthesizeTts s env).1, (synthesizeTts s env).2, rfl⟩
    rw [hsyn] at hev
    rw [hsyn]
    cases r with
    | error e =>
      have hev2 : (if recoverable e = true then
          JobOutcome.events ([] ++ [OutEvent.errorEvent e])
          else JobOutcome.uncaught e) = JobOutcome.events evs := hev
      show List.filter isAudioEvent evs = []
      by_cases hre : recoverable e = true
      · rw [if_pos hre] at hev2
        injection hev2 with h2
        subst h2
        simp [isAudioEvent]
      · rw [if_neg hre] at hev2
        exact absurd hev2 (by simp)
    | ok a =>
      cases a with
      | none =>
        have hev2 : JobOutcome.events [] = JobOutcome.events evs := hev
        injection hev2 with h2
        subst h2
        rfl
      | some b =>
        have hev2 : (if b.isEmpty = true then JobOutcome.events []
            else JobOutcome.events [OutEvent.audioBytes b]) = JobOutcome.events evs := hev
        show List.filter isAudioEvent evs = (if b = [] then [] else [OutEvent.audioBytes b])
        cases hb : b.isEmpty with
        | true =>
          rw [hb, if_pos rfl] at hev2
          injection hev2 with h2
          subst h2
          have hb2 : b = [] := List.isEmpty_iff.mp hb
          simp [hb2]
        | false =>
          rw [hb, if_neg (by simp)] at hev2
          injection hev2 with h2
          subst h2
          have hb2 : b ≠ [] := by
            intro hcon
            rw [hcon] at hb
            simp at hb
          simp [isAudioEvent, hb2]
  · intro jenv evs hev
    exact translateAndSpeak_audio_le_one true s t jenv evs hev

/-- Closed witness for the synthesis fallback chain, at a session without a
voice identity whose Speechmatics provider returns audio for `Hola`. -/
theorem c5_synthesis_fallback_chain_witness :
    (synthesizeTts ⟨("en".data), ("es".data), ("minimax".data), none⟩
        ⟨CallResult.ok none, CallResult.ok (some ("SM".data)),
          CallResult.ok (some ("MM".data))⟩ =
      (Except.ok (some ("SM".data)), [TtsAttempt.smTts])) ∧
      ([OutEvent.audioBytes ("SM".data)].filter isAudioEvent =
        [OutEvent.audioBytes ("SM".data)]) := by
  have h := c5_synthesis_fallback_chain
    ⟨("en".data), ("es".data), ("minimax".data), none⟩
    ⟨CallResult.ok none, CallResult.ok (some ("SM".data)),
      CallResult.ok (some ("MM".data))⟩
    ("minimax".data) ("Hola".data)
  constructor
  · have h3 := h.2.2.1 (some ("SM".data)) (by decide)
    simpa using h3
  · have h6 := (h.2.2.2.2.2.1 (by decide))
      [OutEvent.audioBytes ("SM".data)] (by rfl)
    exact h6.trans (by rfl)

/-- Inductive invariant of the two-job lock system: the holder is exactly the
task inside the locked section, and the event log is fully determined by the
two phases — both tasks are never inside simultaneously, and a completed run's
log is one job's start/end followed by the other's. -/
def lockInv (st : LockState) : Prop :=
  match st.pc0, st.pc1 with
  | Phase.ready, Phase.ready => st.holder = none ∧ st.log = []
  | Phase.crit, Phase.ready =>
    st.holder = some false ∧ st.log = [startEv false]
  | Phase.done, Phase.ready =>
    st.holder = none ∧ st.log = [startEv false, endEv false]
  | Phase.ready, Phase.crit =>
    st.holder = some true ∧ st.log = [startEv true]
  | Phase.ready, Phase.done =>
    st.holder = none ∧ st.log = [startEv true, endEv true]
  | Phase.done, Phase.crit =>
    st.holder = some true ∧
      st.log = [startEv false, endEv false, startEv true]
  | Phase.crit, Phase.done =>
    st.holder = some false ∧
      st.log = [startEv true, endEv true, startEv false]
  | Phase.done, Phase.done =>
    st.holder = none ∧
      (st.log = [startEv false, endEv false, startEv true, endEv true] ∨
        st.log = [startEv true, endEv true, startEv false, endEv false])
  | Phase.crit, Phase.crit => False

/-- The invariant holds initially. -/
theorem lockInv_init : lockInv lockInit :=
  ⟨rfl, rfl⟩

/-- Every lock transition preserves the invariant. -/
theorem lockInv_step {st st2 : LockState} (hinv : lockInv st)
    (hstep : LockStep st st2) : lockInv st2 := by
  cases hstep with
  | acquire i hhold hpc =>
    cases i <;>
      (rcases h0 : st.pc0 <;> rcases h1 : st.pc1 <;>
        simp_all [lockInv, pcOf, setPc, startEv, endEv])
  | release i hhold hpc =>
    cases i <;>
      (rcases h0 : st.pc0 <;> rcases h1 : st.pc1 <;>
        simp_all [lockInv, pcOf, setPc, startEv, endEv])

/-- The invariant holds in every reachable state. -/
theorem lockInv_reachable {st : LockState} (h : LockReachable st) :
    lockInv st := by
  unfold LockReachable at h
  induction h with
  | refl => exact lockInv_init
  | tail _ hstep ih => exact lockInv_step ih hstep

/-- C3: in every reachable interleaving of two translate-and-speak executions
under the session lock, the two are never in the locked section (their
synthesis calls) at the same time, and a completed run's event log shows one
job's start and end strictly before the other's — the later execution starts
only after the earlier one completes. -/
theorem c3_lock_serializes_executions :
    ∀ st : LockState, LockReachable st →
      (¬ (st.pc0 = Phase.crit ∧ st.pc1 = Phase.crit)) ∧
      (st.pc0 = Phase.done → st.pc1 = Phase.done →
        st.log = [startEv false, endEv false, startEv true, endEv true] ∨
        st.log = [startEv true, endEv true, startEv false, endEv false]) := by
  intro st h
  have hinv := lockInv_reachable h
  constructor
  · rintro ⟨h0, h1⟩
    simp [lockInv, h0, h1] at hinv
  · intro h0 h1
    simp only [lockInv, h0, h1] at hinv
    exact hinv.2

/-- Closed witness for the lock-serialization theorem: the completed run in
which job 0 executes, then job 1, is reachable, and the theorem yields its
serialized log. -/
theorem c3_lock_serializes_executions_witness :
    (⟨none, Phase.done, Phase.done,
        [startEv false, endEv false, startEv true, endEv true]⟩ : LockState).log =
        [startEv false, endEv false, startEv true, endEv true] ∨
      (⟨none, Phase.done, Phase.done,
          [startEv false, endEv false, startEv true, endEv true]⟩ : LockState).log =
        [startEv true, endEv true, startEv false, endEv false] := by
  have s1 : LockStep lockInit
      ⟨some false, Phase.crit, Phase.ready, [startEv false]⟩ :=
    LockStep.acquire lockInit false rfl rfl
  have s2 : LockStep ⟨some false, Phase.crit, Phase.ready, [startEv false]⟩
      ⟨none, Phase.done, Phase.ready, [startEv false, endEv false]⟩ :=
    LockStep.release _ false rfl rfl
  have s3 : LockStep ⟨none, Phase.done, Phase.ready, [startEv false, endEv false]⟩
      ⟨some true, Phase.done, Phase.crit,
        [startEv false, endEv false, startEv true]⟩ :=
    LockStep.acquire _ true rfl rfl
  have s4 : LockStep
      ⟨some true, Phase.done, Phase.crit, [startEv false, endEv false, startEv true]⟩
      ⟨none, Phase.done, Phase.done,
        [startEv false, endEv false, startEv true, endEv true]⟩ :=
    LockStep.release _ true rfl rfl
  have hreach : LockReachable
      ⟨none, Phase.done, Phase.done,
        [startEv false, endEv false, startEv true, endEv true]⟩ :=
    Relation.ReflTransGen.tail
      (Relation.ReflTransGen.tail
        (Relation.ReflTransGen.tail (Relation.ReflTransGen.single s1) s2) s3) s4
  exact (c3_lock_serializes_executions _ hreach).2 rfl rfl

end Interp
